import Mathlib

/-!
Verification of the resilience and dispatch layer of the GCP-agent repository:
the token-bucket rate limiter (`rate_limiter.py`), the multi-provider LLM
manager (`llm_manager.py`), the circuit-breaker deployment loop
(`cloud_run_deployer.py`) and the self-healing controller
(`self_healing_system.py`).

Python floats are modelled as rationals (`ℚ`), Python dicts as association
lists, provider names and opaque payloads (urls, exception objects, context
values) as natural numbers, and the external collaborators (LLM adapters,
cloud APIs, the missing private helper methods of `SelfHealingSystem`) as
oracle parameters.  Wall-clock time is passed explicitly.
-/

set_option maxRecDepth 1000000

namespace GCPAgent

/-! ### Token-bucket rate limiter (`rate_limiter.py`, `RateLimiter`) -/

/-- State of `RateLimiter`: the two capacities (`rpm_limit`, `tpm_limit`),
the two current token counts and the last refill instant. -/
structure BucketState where
  rpmLimit : ℚ
  tpmLimit : ℚ
  requestTokens : ℚ
  tokenTokens : ℚ
  lastRefill : ℚ
deriving Repr, DecidableEq

/-- The lazy refill at the top of `RateLimiter.acquire` (lines 21-34):
both token counts grow by `time_passed * limit / 60`, capped at the
capacity, and `last_refill` is set to `now`. -/
def refillTokens (s : BucketState) (now : ℚ) : BucketState :=
  let timePassed := now - s.lastRefill
  { s with
    requestTokens := min s.rpmLimit (s.requestTokens + timePassed * s.rpmLimit / 60)
    tokenTokens := min s.tpmLimit (s.tokenTokens + timePassed * s.tpmLimit / 60)
    lastRefill := now }

/-- The deduction at the bottom of `RateLimiter.acquire` (lines 47-49):
one request token and `token_count` throughput tokens. -/
def consumeTokens (s : BucketState) (tokenCount : ℚ) : BucketState :=
  { s with
    requestTokens := s.requestTokens - 1
    tokenTokens := s.tokenTokens - tokenCount }

/-- The wait-time computation of `RateLimiter.acquire` (lines 39-41). -/
def waitTime (s : BucketState) (tokenCount : ℚ) : ℚ :=
  max ((1 - s.requestTokens) * 60 / s.rpmLimit)
    ((tokenCount - s.tokenTokens) * 60 / s.tpmLimit)

/-- `RateLimiter.acquire` under the idealization that the recursive call
`await self.acquire(token_count)` after the sleep re-enters the critical
section (i.e. as if the lock were reentrant), and that `asyncio.sleep(w)`
advances the clock by exactly `w`.  Each recursive retry consumes one unit
of fuel; `none` means the call has not returned within `fuel` retries. -/
def acquireAux : Nat → BucketState → ℚ → ℚ → Option BucketState
  | 0, _, _, _ => none
  | fuel + 1, s, now, tokenCount =>
    let s1 := refillTokens s now
    if s1.requestTokens < 1 ∨ s1.tokenTokens < tokenCount then
      let w := waitTime s1 tokenCount
      if 0 < w then acquireAux fuel s1 (now + w) tokenCount
      else some (consumeTokens s1 tokenCount)
    else some (consumeTokens s1 tokenCount)

/-- `RateLimiter.acquire` as written: the whole body runs inside
`async with self.lock`, and the wait path executes
`return await self.acquire(token_count)` while that same (non-reentrant)
`asyncio.Lock` is still held by the calling task, so the inner `acquire`
blocks on the lock forever.  A call that reaches the wait path therefore
never returns, modelled as `none`. -/
def acquireLocked (s : BucketState) (now : ℚ) (tokenCount : ℚ) : Option BucketState :=
  let s1 := refillTokens s now
  if s1.requestTokens < 1 ∨ s1.tokenTokens < tokenCount then
    if 0 < waitTime s1 tokenCount then none
    else some (consumeTokens s1 tokenCount)
  else some (consumeTokens s1 tokenCount)

/-- A freshly constructed `RateLimiter(requests_per_minute, tokens_per_minute)`:
both buckets start full and `last_refill` is the construction instant. -/
def freshBucket (rpm tpm : ℚ) : BucketState :=
  { rpmLimit := rpm, tpmLimit := tpm, requestTokens := rpm, tokenTokens := tpm, lastRefill := 0 }

/-- Even with a reentrant lock, a request for more throughput tokens than
`tpm_limit` is never satisfied: the refill is capped at `tpm_limit`, so the
availability check fails on every retry and `acquire` recurses forever. -/
theorem acquireAux_none_of_oversized (fuel : Nat) :
    ∀ (s : BucketState) (now tokenCount : ℚ),
      s.tokenTokens ≤ s.tpmLimit → s.tpmLimit < tokenCount → 0 < s.tpmLimit →
      acquireAux fuel s now tokenCount = none := by
  induction fuel with
  | zero => intro s now c _ _ _; rfl
  | succ fuel ih =>
    intro s now c hle hlt hpos
    have h1 : (refillTokens s now).tokenTokens ≤ s.tpmLimit := min_le_left _ _
    have hcheck : (refillTokens s now).requestTokens < 1 ∨
        (refillTokens s now).tokenTokens < c := Or.inr (lt_of_le_of_lt h1 hlt)
    have htw : 0 < (c - (refillTokens s now).tokenTokens) * 60 / s.tpmLimit := by
      apply div_pos _ hpos
      have : 0 < c - (refillTokens s now).tokenTokens := by
        have := lt_of_le_of_lt h1 hlt
        linarith
      linarith
    have hw : 0 < waitTime (refillTokens s now) c := by
      have hle2 : (c - (refillTokens s now).tokenTokens) * 60 / s.tpmLimit ≤
          waitTime (refillTokens s now) c := by
        unfold waitTime
        exact le_max_right _ _
      exact lt_of_lt_of_le htw hle2
    show acquireAux (fuel + 1) s now c = none
    rw [acquireAux]
    simp only [hcheck, if_true, hw, if_pos]
    exact ih (refillTokens s now) (now + waitTime (refillTokens s now) c) c
      (min_le_left _ _) hlt hpos

/-- A bucket whose request tokens have just been exhausted (the state of a
fresh `rpm=60, tpm=6000` limiter after 60 immediate `acquire(1)` calls at
the refill instant). -/
def drainedBucket : BucketState :=
  { freshBucket 60 6000 with requestTokens := 0 }

/-- C3: refuted as stated.  The claim says every `acquire(token_count)` call
terminates, waiting for refill when tokens are short.  In the code, any call
that reaches the wait path executes `await self.acquire(token_count)` while
the task still holds the non-reentrant `asyncio.Lock`, so it never returns:
at the concrete input `acquire(1)` on `drainedBucket` (request tokens 0),
`acquireLocked` yields `none` (first conjunct), although the token/refill
arithmetic alone would satisfy the call after a single one-second wait, as
the idealized reentrant model shows (second conjunct).  Moreover, for
`token_count` above `tpm_limit` even the idealized model never returns
(third conjunct, `acquire(61)` on a fresh `rpm=60, tpm=60` limiter). -/
theorem rate_limiter_wait_path_never_returns :
    acquireLocked drainedBucket 0 1 = none
    ∧ (acquireAux 2 drainedBucket 0 1).isSome = true
    ∧ ¬ ∃ fuel, (acquireAux fuel (freshBucket 60 60) 0 61).isSome = true := by
  refine ⟨by with_unfolding_all decide, by with_unfolding_all decide, ?_⟩
  rintro ⟨fuel, h⟩
  rw [acquireAux_none_of_oversized fuel (freshBucket 60 60) 0 61
    (by norm_num [freshBucket]) (by norm_num [freshBucket]) (by norm_num [freshBucket])] at h
  simp at h

/-- C4: refuted as stated.  The claim says a call with
`token_count > tokens_per_minute` fails immediately with `RequestTooLarge`
and never waits.  No such check (and no `RequestTooLarge`) exists in
`rate_limiter.py`: on a fresh `rpm=60, tpm=60` limiter, `acquire(61)` takes
the wait path and never returns — under the faithful lock model it deadlocks
at once (first conjunct), and even under the idealized reentrant model the
refill is capped at `tpm_limit = 60 < 61`, so no amount of fuel ever makes
the call return (second conjunct). -/
theorem oversized_request_never_fails_fast :
    acquireLocked (freshBucket 60 60) 0 61 = none
    ∧ ¬ ∃ fuel, (acquireAux fuel (freshBucket 60 60) 0 61).isSome = true := by
  refine ⟨by with_unfolding_all decide, ?_⟩
  rintro ⟨fuel, h⟩
  rw [acquireAux_none_of_oversized fuel (freshBucket 60 60) 0 61
    (by norm_num [freshBucket]) (by norm_num [freshBucket]) (by norm_num [freshBucket])] at h
  simp at h

/-! ### Multi-provider manager (`llm_manager.py`, `LLMManager`)

Provider names are modelled as natural numbers and Python dicts as
association lists (Python dicts preserve insertion order, so insertion,
in-place overwrite and deletion are modelled positionally). -/

/-- `d.get(k)` / `d[k]` lookup on an association list. -/
def dictGet {α : Type} (l : List (Nat × α)) (k : Nat) : Option α :=
  (l.find? (fun e => e.1 == k)).map (fun e => e.2)

/-- `d[k] = v` on an association list: overwrite in place when the key is
present, append otherwise (Python dict assignment). -/
def dictSet {α : Type} (l : List (Nat × α)) (k : Nat) (v : α) : List (Nat × α) :=
  if (l.find? (fun e => e.1 == k)).isSome then
    l.map (fun e => if e.1 == k then (k, v) else e)
  else l ++ [(k, v)]

/-- `del d[k]` on an association list. -/
def dictDelete {α : Type} (l : List (Nat × α)) (k : Nat) : List (Nat × α) :=
  l.filter (fun e => e.1 != k)

/-- The key list of an association list (Python `list(d.keys())`). -/
def dictKeys {α : Type} (l : List (Nat × α)) : List Nat :=
  l.map (fun e => e.1)

/-- The per-provider entry of `performance_metrics` (`add_provider`,
lines 24-29). -/
structure Metrics where
  totalRequests : Nat
  successfulRequests : Nat
  averageLatency : ℚ
  errorRate : ℚ
deriving Repr, DecidableEq

/-- The metrics a provider starts with in `add_provider`. -/
def freshMetrics : Metrics :=
  { totalRequests := 0, successfulRequests := 0, averageLatency := 0, errorRate := 0 }

/-- The four registries of `LLMManager.__init__`.  The adapter objects
stored in `self.providers` are external collaborators; only their keys
matter, so the providers dict carries `Unit` values. -/
structure ManagerState where
  providers : List (Nat × Unit)
  providerPriority : List Nat
  healthStatus : List (Nat × Bool)
  performanceMetrics : List (Nat × Metrics)
deriving Repr, DecidableEq

/-- A fresh `LLMManager()`. -/
def initialManager : ManagerState :=
  { providers := [], providerPriority := [], healthStatus := [], performanceMetrics := [] }

/-- Python `list.insert(i, a)`: a negative index counts from the end
(clamped at 0), an index past the end appends. -/
def pyInsertIdx (l : List Nat) (i : Int) (a : Nat) : List Nat :=
  let n : Nat := if i < 0 then (l.length + i).toNat else i.toNat
  l.take n ++ a :: l.drop n

/-- `LLMManager.add_provider` (lines 19-32). -/
def addProvider (st : ManagerState) (name : Nat) (priority : Int) : ManagerState :=
  { providers := dictSet st.providers name ()
    healthStatus := dictSet st.healthStatus name true
    performanceMetrics := dictSet st.performanceMetrics name freshMetrics
    providerPriority := pyInsertIdx st.providerPriority priority name }

/-- `LLMManager.remove_provider` (lines 34-41): a no-op unless the name is
a key of `self.providers`. -/
def removeProvider (st : ManagerState) (name : Nat) : ManagerState :=
  if (dictGet st.providers name).isSome then
    { providers := dictDelete st.providers name
      healthStatus := dictDelete st.healthStatus name
      performanceMetrics := dictDelete st.performanceMetrics name
      providerPriority :=
        if name ∈ st.providerPriority then st.providerPriority.erase name
        else st.providerPriority }
  else st

/-- `self.health_status.get(name, False)`. -/
def healthOf (st : ManagerState) (name : Nat) : Bool :=
  (dictGet st.healthStatus name).getD false

/-- The head of the candidate list of `LLMManager.generate` (lines 54-57):
the preferred provider alone, when one is specified, registered and
healthy. -/
def preferredCandidate (st : ManagerState) (preferred : Option Nat) : List Nat :=
  match preferred with
  | some p => if (dictGet st.providers p).isSome && healthOf st p then [p] else []
  | none => []

/-- The candidate list built at the top of `LLMManager.generate`
(lines 52-62): the preferred provider first when it is registered and
healthy, then every healthy provider from `provider_priority` that is not
already in the list. -/
def providersToTry (st : ManagerState) (preferred : Option Nat) : List Nat :=
  st.providerPriority.foldl
    (fun acc name => if !(acc.contains name) && healthOf st name then acc ++ [name] else acc)
    (preferredCandidate st preferred)

/-- Modelled from the spec: "Build a candidate order: preferred backend
(if healthy) first, then remaining healthy backends in priority order.
Unhealthy backends are skipped entirely."  Stated independently of the
source's fold so that `providersToTry` can be proved to refine it. -/
def specCandidateOrder (st : ManagerState) (preferred : Option Nat) : List Nat :=
  preferredCandidate st preferred ++ st.providerPriority.filter
    (fun name => healthOf st name && !((preferredCandidate st preferred).contains name))

/-- `LLMManager._update_metrics` (lines 95-110): bump `total_requests`; on
success bump `successful_requests` and fold the latency into the
exponential moving average with `alpha = 0.1`; always recompute
`error_rate = 1 - successful/total`. -/
def updateMetrics (st : ManagerState) (name : Nat) (latency : ℚ) (success : Bool) :
    ManagerState :=
  match dictGet st.performanceMetrics name with
  | none => st
  | some m =>
    let m1 : Metrics := { m with totalRequests := m.totalRequests + 1 }
    let m2 : Metrics :=
      if success then
        { m1 with
          successfulRequests := m1.successfulRequests + 1
          averageLatency := (1 / 10 : ℚ) * latency + (9 / 10 : ℚ) * m1.averageLatency }
      else m1
    let m3 : Metrics :=
      { m2 with
        errorRate := 1 - (m2.successfulRequests : ℚ) / (m2.totalRequests : ℚ) }
    { st with performanceMetrics := dictSet st.performanceMetrics name m3 }

/-- `LLMManager._check_provider_health` (lines 112-120): mark the provider
unhealthy when `error_rate > 0.5` and `total_requests > 10`; otherwise
leave the health flag untouched. -/
def checkProviderHealth (st : ManagerState) (name : Nat) : ManagerState :=
  match dictGet st.performanceMetrics name with
  | none => st
  | some m =>
    if m.errorRate > 1 / 2 ∧ m.totalRequests > 10 then
      { st with healthStatus := dictSet st.healthStatus name false }
    else st

/-- Behaviour of one adapter call `provider.generate(request)`: success
with a measured latency, or a raised exception identified by `err`. -/
inductive CallOutcome where
  | ok (latency : ℚ)
  | fail (err : Nat)
deriving Repr, DecidableEq

/-- Whether an adapter call raised. -/
def isFail : CallOutcome → Bool
  | .ok _ => false
  | .fail _ => true

/-- The exception carried by a failed adapter call. -/
def failErr : CallOutcome → Option Nat
  | .ok _ => none
  | .fail e => some e

/-- The successful return of `LLMManager.generate`: the adapter result,
annotated with `provider_used` and `latency_ms` (lines 77-78). -/
structure GenSuccess where
  providerUsed : Nat
  latencyMs : ℚ
deriving Repr, DecidableEq

/-- The single aggregate failure of `LLMManager.generate` (line 93):
`Exception(f"All providers failed. Last error: {last_exception}")`, the
spec's `AllBackendsExhausted`, carrying the last per-provider exception
(`none` when no provider was attempted). -/
structure AllProvidersFailed where
  lastError : Option Nat
deriving Repr, DecidableEq

/-- The failover loop of `LLMManager.generate` (lines 64-93), threading the
manager state, the list of providers attempted so far (reversed) and
`last_exception`.  On success the provider's metrics are updated and the
result returned; on a raised exception the metrics and health status are
updated and the next candidate is tried. -/
def genLoop (oracle : Nat → CallOutcome) :
    List Nat → ManagerState → List Nat → Option Nat →
    ManagerState × List Nat × Except AllProvidersFailed GenSuccess
  | [], st, attempted, lastExc => (st, attempted.reverse, .error ⟨lastExc⟩)
  | name :: rest, st, attempted, _lastExc =>
    match oracle name with
    | .ok latency =>
      let st1 := updateMetrics st name latency true
      (st1, (name :: attempted).reverse, .ok ⟨name, latency * 1000⟩)
    | .fail err =>
      let st1 := updateMetrics st name 0 false
      let st2 := checkProviderHealth st1 name
      genLoop oracle rest st2 (name :: attempted) (some err)

/-- One run of the body of `LLMManager.generate`: build the candidate list,
then fail over along it.  Returns the final state, the providers attempted
in order, and the outcome. -/
def runGenerate (st : ManagerState) (oracle : Nat → CallOutcome) (preferred : Option Nat) :
    ManagerState × List Nat × Except AllProvidersFailed GenSuccess :=
  genLoop oracle (providersToTry st preferred) st [] none

/-- The `@backoff.on_exception(..., max_tries=3)` decorator on `generate`
(lines 43-48): rerun the whole body on an exception, up to `tries` runs in
total, re-raising the last aggregate error when they are exhausted. -/
def generateWithBackoff (oracle : Nat → CallOutcome) :
    Nat → ManagerState → Option Nat → ManagerState × Except AllProvidersFailed GenSuccess
  | 0, st, _ => (st, .error ⟨none⟩)
  | 1, st, pref =>
    let r := runGenerate st oracle pref
    (r.1, r.2.2)
  | n + 2, st, pref =>
    let r := runGenerate st oracle pref
    match r.2.2 with
    | .ok v => (r.1, .ok v)
    | .error _ => generateWithBackoff oracle (n + 1) r.1 pref


/-- `List.contains` is decided membership. -/
theorem contains_eq_decide_mem (l : List Nat) (a : Nat) : l.contains a = decide (a ∈ l) := by
  by_cases h : a ∈ l
  · simp [h, List.elem_iff.mpr h, List.contains]
  · simp only [h, decide_eq_false_iff_not.mpr h]
    cases hc : l.contains a
    · rfl
    · exact absurd (List.elem_iff.mp hc) h

/-- The accumulator-generalised reading of the candidate fold of
`LLMManager.generate`: when the priority list has no duplicates, folding it
appends exactly its healthy members that are not already accumulated. -/
theorem foldl_candidates (st : ManagerState) :
    ∀ (l : List Nat) (acc : List Nat), l.Nodup →
      l.foldl
        (fun acc name => if !(acc.contains name) && healthOf st name then acc ++ [name] else acc)
        acc
      = acc ++ l.filter (fun name => healthOf st name && !(acc.contains name)) := by
  intro l
  induction l with
  | nil => intro acc _; simp
  | cons a l ih =>
    intro acc hnd
    have hal : a ∉ l := (List.nodup_cons.mp hnd).1
    have hl : l.Nodup := (List.nodup_cons.mp hnd).2
    by_cases hmem : a ∈ acc
    · have hc : acc.contains a = true := by
        rw [contains_eq_decide_mem]; exact decide_eq_true hmem
      simp only [List.foldl_cons, List.filter_cons, hc, Bool.not_true, Bool.false_and,
        Bool.and_false, Bool.false_eq_true, if_false]
      exact ih acc hl
    · have hc : acc.contains a = false := by
        rw [contains_eq_decide_mem]; exact decide_eq_false hmem
      cases hh : healthOf st a with
      | true =>
        simp only [List.foldl_cons, List.filter_cons, hc, hh, Bool.not_false, Bool.true_and,
          Bool.and_true, if_true]
        rw [ih (acc ++ [a]) hl]
        have hfilter :
            l.filter (fun name => healthOf st name && !((acc ++ [a]).contains name))
              = l.filter (fun name => healthOf st name && !(acc.contains name)) := by
          apply List.filter_congr
          intro x hx
          have hxa : x ≠ a := fun hxa => hal (hxa ▸ hx)
          have h1 : (acc ++ [a]).contains x = acc.contains x := by
            rw [contains_eq_decide_mem, contains_eq_decide_mem]
            have hmm : (x ∈ acc ++ [a]) ↔ x ∈ acc := by
              simp [List.mem_append, hxa]
            simp [hmm]
          rw [h1]
        rw [hfilter]
        simp
      | false =>
        simp only [List.foldl_cons, List.filter_cons, hh, Bool.and_false, Bool.false_and,
          Bool.false_eq_true, if_false]
        exact ih acc hl

/-- Every provider in the preferred-candidate head is healthy. -/
theorem mem_preferredCandidate_healthy (st : ManagerState) (preferred : Option Nat) :
    ∀ p ∈ preferredCandidate st preferred, healthOf st p = true := by
  intro p hp
  cases preferred with
  | none => simp [preferredCandidate] at hp
  | some q =>
    simp only [preferredCandidate] at hp
    by_cases hq : ((dictGet st.providers q).isSome && healthOf st q) = true
    · rw [if_pos hq] at hp
      have hpq : p = q := by simpa using hp
      rw [hpq]
      simp only [Bool.and_eq_true] at hq
      exact hq.2
    · rw [if_neg hq] at hp
      simp at hp

/-- Folding the priority list over a base of healthy providers only ever
adds healthy providers. -/
theorem foldl_healthy (st : ManagerState) :
    ∀ (l : List Nat) (base : List Nat),
      (∀ p ∈ base, healthOf st p = true) →
      ∀ p ∈ l.foldl
          (fun acc name => if !(acc.contains name) && healthOf st name then acc ++ [name] else acc)
          base,
        healthOf st p = true := by
  intro l
  induction l with
  | nil =>
    intro base hb p hp
    simp only [List.foldl_nil] at hp
    exact hb p hp
  | cons a l ih =>
    intro base hb p hp
    simp only [List.foldl_cons] at hp
    by_cases hguard : (!(base.contains a) && healthOf st a) = true
    · rw [if_pos hguard] at hp
      refine ih (base ++ [a]) ?_ p hp
      intro q hq
      rcases List.mem_append.mp hq with h1 | h2
      · exact hb q h1
      · have hqa : q = a := by simpa using h2
        rw [hqa]
        simp only [Bool.and_eq_true] at hguard
        exact hguard.2
    · rw [if_neg hguard] at hp
      exact ih base hb p hp

/-- Every provider in the candidate list is healthy at dispatch time. -/
theorem mem_providersToTry_healthy (st : ManagerState) (preferred : Option Nat) :
    ∀ p ∈ providersToTry st preferred, healthOf st p = true := by
  unfold providersToTry
  exact foldl_healthy st st.providerPriority (preferredCandidate st preferred)
    (mem_preferredCandidate_healthy st preferred)

/-- Every provider attempted by the failover loop comes from the
accumulator or from the candidate list it walks. -/
theorem mem_genLoop_attempted (oracle : Nat → CallOutcome) :
    ∀ (l : List Nat) (st : ManagerState) (att : List Nat) (lastExc : Option Nat) (p : Nat),
      p ∈ (genLoop oracle l st att lastExc).2.1 → p ∈ att ∨ p ∈ l := by
  intro l
  induction l with
  | nil =>
    intro st att lastExc p hp
    simp only [genLoop, List.mem_reverse] at hp
    exact Or.inl hp
  | cons name rest ih =>
    intro st att lastExc p hp
    cases hcall : oracle name with
    | ok latency =>
      simp only [genLoop, hcall] at hp
      simp only [List.mem_reverse, List.mem_cons] at hp
      rcases hp with h | h
      · exact Or.inr (by simp [h])
      · exact Or.inl h
    | fail err =>
      simp only [genLoop, hcall] at hp
      rcases ih _ _ _ p hp with h | h
      · rcases List.mem_cons.mp h with h1 | h1
        · exact Or.inr (by simp [h1])
        · exact Or.inl h1
      · exact Or.inr (List.mem_cons_of_mem _ h)

/-- The scenario registry of the spec's failover-order test: providers
`A = 0` (unhealthy), `B = 1` (healthy), `C = 2` (healthy), in priority
order `[A, B, C]`. -/
def stABC : ManagerState :=
  { providers := [(0, ()), (1, ()), (2, ())]
    providerPriority := [0, 1, 2]
    healthStatus := [(0, false), (1, true), (2, true)]
    performanceMetrics := [(0, freshMetrics), (1, freshMetrics), (2, freshMetrics)] }

/-- An adapter oracle under which every provider call raises. -/
def alwaysFailOracle : Nat → CallOutcome := fun _ => .fail 3

/-- C1: in every dispatch through `LLMManager.generate`, the candidate
order is exactly the preferred provider (when specified, registered and
healthy) followed by the remaining healthy providers in priority order
(first conjunct); every provider actually attempted is healthy at dispatch
time, so an unhealthy provider is never attempted (second conjunct); and in
the concrete `[A(unhealthy), B(healthy), C(healthy)]` registry, A is never
called, B is called first, and C is called exactly when B's call raises
(remaining conjuncts). -/
theorem failover_candidate_order (st : ManagerState) (preferred : Option Nat)
    (oracle : Nat → CallOutcome) (hnd : st.providerPriority.Nodup) :
    providersToTry st preferred = specCandidateOrder st preferred
    ∧ (∀ p ∈ (runGenerate st oracle preferred).2.1, healthOf st p = true)
    ∧ 0 ∉ (runGenerate stABC oracle none).2.1
    ∧ (runGenerate stABC oracle none).2.1.head? = some 1
    ∧ (2 ∈ (runGenerate stABC oracle none).2.1 ↔ isFail (oracle 1) = true) := by
  have hcand : providersToTry stABC none = [1, 2] := by decide
  have hattempted : (runGenerate stABC oracle none).2.1
      = if isFail (oracle 1) then [1, 2] else [1] := by
    unfold runGenerate
    rw [hcand]
    cases h1 : oracle 1 with
    | ok latency => simp [genLoop, h1, isFail]
    | fail err =>
      cases h2 : oracle 2 with
      | ok latency2 => simp [genLoop, h1, h2, isFail]
      | fail err2 => simp [genLoop, h1, h2, isFail]
  refine ⟨?_, ?_, ?_, ?_, ?_⟩
  · unfold providersToTry specCandidateOrder
    exact foldl_candidates st st.providerPriority _ hnd
  · intro p hp
    rcases mem_genLoop_attempted oracle _ st [] none p hp with h | h
    · simp at h
    · exact mem_providersToTry_healthy st preferred p h
  · rw [hattempted]
    by_cases h : isFail (oracle 1) <;> simp [h]
  · rw [hattempted]
    by_cases h : isFail (oracle 1) <;> simp [h]
  · rw [hattempted]
    by_cases h : isFail (oracle 1) <;> simp [h]

/-- Concrete instantiation of `failover_candidate_order`: the `stABC`
registry with preferred provider `B = 1` and an oracle that fails every
call. -/
theorem failover_candidate_order_witness :
    stABC.providerPriority.Nodup
    ∧ (providersToTry stABC (some 1) = specCandidateOrder stABC (some 1)
       ∧ (∀ p ∈ (runGenerate stABC alwaysFailOracle (some 1)).2.1, healthOf stABC p = true)
       ∧ 0 ∉ (runGenerate stABC alwaysFailOracle none).2.1
       ∧ (runGenerate stABC alwaysFailOracle none).2.1.head? = some 1
       ∧ (2 ∈ (runGenerate stABC alwaysFailOracle none).2.1
            ↔ isFail (alwaysFailOracle 1) = true)) :=
  ⟨by decide, failover_candidate_order stABC (some 1) alwaysFailOracle (by decide)⟩

/-- `last_exception` after an exhausted failover walk along `l` that
started with `lastExc` recorded: the error of the last candidate, or
`lastExc` when `l` is empty. -/
def lastCandidateErrorFrom (oracle : Nat → CallOutcome) (l : List Nat)
    (lastExc : Option Nat) : Option Nat :=
  (l.getLast?.map (fun p => failErr (oracle p))).getD lastExc

/-- `last_exception` at the end of a full dispatch whose candidates all
raised: the error of the last candidate (`none` when there were none). -/
def lastCandidateError (oracle : Nat → CallOutcome) (l : List Nat) : Option Nat :=
  lastCandidateErrorFrom oracle l none

/-- When every candidate raises, the failover loop returns the aggregate
error carrying the last candidate's exception (or the incoming
`last_exception` when the list is empty). -/
theorem genLoop_allfail (oracle : Nat → CallOutcome) :
    ∀ (l : List Nat) (st : ManagerState) (att : List Nat) (lastExc : Option Nat),
      (∀ p ∈ l, isFail (oracle p) = true) →
      (genLoop oracle l st att lastExc).2.2 =
        .error ⟨lastCandidateErrorFrom oracle l lastExc⟩ := by
  intro l
  induction l with
  | nil => intro st att lastExc _; rfl
  | cons name rest ih =>
    intro st att lastExc hall
    have hname : isFail (oracle name) = true := hall name (by simp)
    cases hcall : oracle name with
    | ok latency => rw [hcall] at hname; simp [isFail] at hname
    | fail err =>
      simp only [genLoop, hcall]
      rw [ih _ _ (some err) (fun p hp => hall p (List.mem_cons_of_mem _ hp))]
      cases rest with
      | nil => simp [lastCandidateErrorFrom, hcall, failErr]
      | cons b bs =>
        have hne : (b :: bs) ≠ ([] : List Nat) := by simp
        obtain ⟨x, hx⟩ := Option.isSome_iff_exists.mp (List.getLast?_isSome.mpr hne)
        simp [lastCandidateErrorFrom, List.getLast?_cons_cons, hx]

/-- When every provider raises, a single run of the `generate` body ends in
the aggregate error. -/
theorem runGenerate_allfail_error (oracle : Nat → CallOutcome)
    (hall : ∀ p, isFail (oracle p) = true) (st : ManagerState) (preferred : Option Nat) :
    ∃ e, (runGenerate st oracle preferred).2.2 = .error e := by
  refine ⟨_, genLoop_allfail oracle (providersToTry st preferred) st [] none ?_⟩
  intro p _
  exact hall p

/-- C2: when every candidate's call raises, no per-provider failure
surfaces: the dispatch returns the single aggregate `All providers failed`
error carrying the last underlying provider error (first conjunct), and the
caller of the retry-decorated entry point likewise observes only an
aggregate error (second conjunct) — by the result type, an aggregate error
is the only possible failure. -/
theorem all_backends_exhausted_aggregation (st : ManagerState) (preferred : Option Nat)
    (oracle : Nat → CallOutcome)
    (h : ∀ p ∈ providersToTry st preferred, isFail (oracle p) = true) :
    (runGenerate st oracle preferred).2.2 =
      .error ⟨lastCandidateError oracle (providersToTry st preferred)⟩
    ∧ ((∀ p, isFail (oracle p) = true) →
       ∃ e, (generateWithBackoff oracle 3 st preferred).2 = .error e) := by
  constructor
  · unfold runGenerate
    rw [genLoop_allfail oracle (providersToTry st preferred) st [] none h]
    rfl
  · intro hall
    obtain ⟨e1, he1⟩ := runGenerate_allfail_error oracle hall st preferred
    obtain ⟨e2, he2⟩ :=
      runGenerate_allfail_error oracle hall (runGenerate st oracle preferred).1 preferred
    obtain ⟨e3, he3⟩ := runGenerate_allfail_error oracle hall
      (runGenerate (runGenerate st oracle preferred).1 oracle preferred).1 preferred
    refine ⟨e3, ?_⟩
    show (generateWithBackoff oracle (1 + 2) st preferred).2 = .error e3
    rw [generateWithBackoff]
    simp only [he1]
    show (generateWithBackoff oracle (0 + 2) _ preferred).2 = .error e3
    rw [generateWithBackoff]
    simp only [he2]
    show (generateWithBackoff oracle 1 _ preferred).2 = .error e3
    rw [generateWithBackoff]
    exact he3

/-- Concrete instantiation of `all_backends_exhausted_aggregation`: the
`stABC` registry, preferred provider `A = 0`, all calls failing. -/
theorem all_backends_exhausted_aggregation_witness :
    (∀ p ∈ providersToTry stABC (some 0), isFail (alwaysFailOracle p) = true)
    ∧ ((runGenerate stABC alwaysFailOracle (some 0)).2.2 =
        .error ⟨lastCandidateError alwaysFailOracle (providersToTry stABC (some 0))⟩
      ∧ ((∀ p, isFail (alwaysFailOracle p) = true) →
         ∃ e, (generateWithBackoff alwaysFailOracle 3 stABC (some 0)).2 = .error e)) :=
  ⟨by decide, all_backends_exhausted_aggregation stABC (some 0) alwaysFailOracle (by decide)⟩

/-- Unfolding lemma: looking a key up in a cons cell. -/
theorem dictGet_cons {α : Type} (e : Nat × α) (l : List (Nat × α)) (k : Nat) :
    dictGet (e :: l) k = if e.1 == k then some e.2 else dictGet l k := by
  unfold dictGet
  rw [List.find?_cons]
  by_cases he : (e.1 == k) = true
  · simp [he]
  · simp [he]

/-- In-place overwrite: the overwritten key reads back the new value when
the key was present. -/
theorem dictGet_mapSet_self {α : Type} (k : Nat) (v : α) :
    ∀ l : List (Nat × α),
      dictGet (l.map (fun e => if e.1 == k then (k, v) else e)) k
        = if (l.find? (fun e => e.1 == k)).isSome then some v else none := by
  intro l
  induction l with
  | nil => simp [dictGet]
  | cons e es ih =>
    by_cases he : (e.1 == k) = true
    · rw [List.map_cons, if_pos he, dictGet_cons, List.find?_cons]
      simp [he]
    · rw [List.map_cons, if_neg he, dictGet_cons, if_neg he, List.find?_cons]
      simp only [he]
      exact ih

/-- In-place overwrite does not change the value read at any other key. -/
theorem dictGet_mapSet_ne {α : Type} (k : Nat) (v : α) (q : Nat) (hq : q ≠ k) :
    ∀ l : List (Nat × α),
      dictGet (l.map (fun e => if e.1 == k then (k, v) else e)) q = dictGet l q := by
  intro l
  induction l with
  | nil => rfl
  | cons e es ih =>
    by_cases he : (e.1 == k) = true
    · have hek : e.1 = k := by simpa using he
      rw [List.map_cons, if_pos he, dictGet_cons, dictGet_cons]
      have h1 : ((k, v).1 == q) = false := by
        simp only []
        exact beq_eq_false_iff_ne.mpr (Ne.symm hq)
      have h2 : (e.1 == q) = false := by
        rw [hek]
        exact beq_eq_false_iff_ne.mpr (Ne.symm hq)
      rw [h1, h2, if_neg (by simp), if_neg (by simp)]
      exact ih
    · rw [List.map_cons, if_neg he, dictGet_cons, dictGet_cons]
      by_cases heq : (e.1 == q) = true
      · rw [if_pos heq, if_pos heq]
      · rw [if_neg heq, if_neg heq]
        exact ih

/-- Appending a single binding: reads fall through to it only when the key
is absent from the front. -/
theorem dictGet_append_single {α : Type} (k : Nat) (v : α) (q : Nat) :
    ∀ l : List (Nat × α),
      dictGet (l ++ [(k, v)]) q
        = if (dictGet l q).isSome then dictGet l q
          else (if q = k then some v else none) := by
  intro l
  induction l with
  | nil =>
    simp only [List.nil_append, dictGet_cons]
    by_cases hq : q = k
    · rw [if_pos (beq_iff_eq.mpr hq.symm)]
      simp [dictGet, hq]
    · rw [if_neg (by simpa using fun h => hq h.symm)]
      simp [dictGet, hq]
  | cons e es ih =>
    rw [List.cons_append, dictGet_cons, dictGet_cons]
    by_cases heq : (e.1 == q) = true
    · rw [if_pos heq, if_pos heq]
      simp
    · rw [if_neg heq, if_neg heq]
      exact ih

/-- The main `dictSet` reading lemma: after `d[k] = v`, key `k` reads `v`
and every other key is unchanged. -/
theorem dictGet_dictSet {α : Type} (k : Nat) (v : α) (q : Nat) (l : List (Nat × α)) :
    dictGet (dictSet l k v) q = if q = k then some v else dictGet l q := by
  unfold dictSet
  by_cases hfind : ((l.find? (fun e => e.1 == k)).isSome) = true
  · rw [if_pos hfind]
    by_cases hq : q = k
    · rw [if_pos hq, hq, dictGet_mapSet_self, if_pos hfind]
    · rw [if_neg hq, dictGet_mapSet_ne k v q hq]
  · rw [if_neg hfind, dictGet_append_single]
    have hnone : dictGet l k = none := by
      unfold dictGet
      cases hf : l.find? (fun e => e.1 == k)
      · rfl
      · rw [hf] at hfind
        simp at hfind
    by_cases hq : q = k
    · rw [if_pos hq, hq, hnone]
      simp
    · rw [if_neg hq, if_neg hq]
      cases hdg : dictGet l q
      · simp
      · simp

/-- `_update_metrics` never touches the health registry. -/
theorem healthOf_updateMetrics (st : ManagerState) (name : Nat) (latency : ℚ)
    (success : Bool) (q : Nat) :
    healthOf (updateMetrics st name latency success) q = healthOf st q := by
  unfold updateMetrics
  cases dictGet st.performanceMetrics name
  · rfl
  · rfl

/-- Unfolding lemma for `_check_provider_health` at a registered
provider. -/
theorem checkProviderHealth_eq (st : ManagerState) (name : Nat) (m : Metrics)
    (hm : dictGet st.performanceMetrics name = some m) :
    checkProviderHealth st name =
      if m.errorRate > 1 / 2 ∧ m.totalRequests > 10
      then { st with healthStatus := dictSet st.healthStatus name false }
      else st := by
  unfold checkProviderHealth
  rw [hm]

/-- `_check_provider_health` only ever writes `False` into the health
registry: an unhealthy provider stays unhealthy. -/
theorem healthOf_checkProviderHealth_false (st : ManagerState) (name q : Nat)
    (h : healthOf st q = false) : healthOf (checkProviderHealth st name) q = false := by
  cases hm : dictGet st.performanceMetrics name with
  | none =>
    unfold checkProviderHealth
    rw [hm]
    exact h
  | some m =>
    rw [checkProviderHealth_eq st name m hm]
    by_cases hcond : m.errorRate > 1 / 2 ∧ m.totalRequests > 10
    · rw [if_pos hcond]
      unfold healthOf
      rw [dictGet_dictSet]
      by_cases hq : q = name
      · rw [if_pos hq]
        rfl
      · rw [if_neg hq]
        exact h
    · rw [if_neg hcond]
      exact h

/-- The failover loop never turns an unhealthy provider healthy. -/
theorem genLoop_health_false (oracle : Nat → CallOutcome) :
    ∀ (l : List Nat) (st : ManagerState) (att : List Nat) (lastExc : Option Nat) (q : Nat),
      healthOf st q = false → healthOf (genLoop oracle l st att lastExc).1 q = false := by
  intro l
  induction l with
  | nil => intro st att lastExc q h; exact h
  | cons name rest ih =>
    intro st att lastExc q h
    cases hcall : oracle name with
    | ok latency =>
      simp only [genLoop, hcall]
      rw [healthOf_updateMetrics]
      exact h
    | fail err =>
      simp only [genLoop, hcall]
      refine ih _ _ _ q ?_
      refine healthOf_checkProviderHealth_false _ _ _ ?_
      rw [healthOf_updateMetrics]
      exact h

/-- A provider that is unhealthy going into a dispatch is not attempted by
it, and is still unhealthy after it. -/
theorem unhealthy_skipped (st : ManagerState) (oracle : Nat → CallOutcome)
    (preferred : Option Nat) (q : Nat) (h : healthOf st q = false) :
    q ∉ (runGenerate st oracle preferred).2.1
    ∧ healthOf (runGenerate st oracle preferred).1 q = false := by
  constructor
  · intro hq
    rcases mem_genLoop_attempted oracle _ st [] none q hq with h1 | h1
    · simp at h1
    · rw [mem_providersToTry_healthy st preferred q h1] at h
      simp at h
  · exact genLoop_health_false oracle _ st [] none q h

/-- The scenario registry of the spec's health-degradation test: providers
`A = 0`, `B = 1`, `C = 2`, all healthy, priority `[A, B, C]`. -/
def stABCHealthy : ManagerState :=
  { providers := [(0, ()), (1, ()), (2, ())]
    providerPriority := [0, 1, 2]
    healthStatus := [(0, true), (1, true), (2, true)]
    performanceMetrics := [(0, freshMetrics), (1, freshMetrics), (2, freshMetrics)] }

/-- The adapter oracle of the health-degradation scenario: every call to
`A = 0` raises, every other provider answers immediately. -/
def scenarioOracle : Nat → CallOutcome := fun p => if p = 0 then .fail 7 else .ok 0

/-- One scenario request: a dispatch preferring provider `A = 0`. -/
def dispatchTo0 (st : ManagerState) : ManagerState :=
  (runGenerate st scenarioOracle (some 0)).1

/-- `n` scenario requests in sequence. -/
def iterateDispatch : Nat → ManagerState → ManagerState
  | 0, st => st
  | n + 1, st => iterateDispatch n (dispatchTo0 st)

/-- Splitting a run of scenario requests. -/
theorem iterateDispatch_add (a : Nat) :
    ∀ (b : Nat) (st : ManagerState),
      iterateDispatch (a + b) st = iterateDispatch a (iterateDispatch b st) := by
  intro b
  induction b with
  | zero => intro st; rfl
  | succ b ih =>
    intro st
    show iterateDispatch (a + b + 1) st = _
    rw [iterateDispatch]
    exact ih (dispatchTo0 st)

/-- Once provider `A = 0` is unhealthy, any further run of scenario
requests leaves it unhealthy. -/
theorem iterateDispatch_unhealthy :
    ∀ (n : Nat) (st : ManagerState), healthOf st 0 = false →
      healthOf (iterateDispatch n st) 0 = false := by
  intro n
  induction n with
  | zero => intro st h; exact h
  | succ n ih =>
    intro st h
    show healthOf (iterateDispatch n (dispatchTo0 st)) 0 = false
    exact ih _ ((unhealthy_skipped st scenarioOracle (some 0) 0 h).2)

/-- After the 11th failing request to provider `A = 0` its
`error_rate = 1 > 0.5` and `total_requests = 11 > 10`, so it is marked
unhealthy. -/
theorem eleven_failures_unhealthy : healthOf (iterateDispatch 11 stABCHealthy) 0 = false := by
  with_unfolding_all decide

/-- The metrics entry produced by `_update_metrics` after a failed call:
`total_requests` bumped, `error_rate = 1 - successful/total` recomputed,
everything else unchanged. -/
def failedMetricsUpdate (m : Metrics) : Metrics :=
  { m with
    totalRequests := m.totalRequests + 1
    errorRate := 1 - (m.successfulRequests : ℚ) / ((m.totalRequests + 1 : Nat) : ℚ) }

theorem failedMetricsUpdate_errorRate (m : Metrics) :
    (failedMetricsUpdate m).errorRate
      = 1 - (m.successfulRequests : ℚ) / ((m.totalRequests + 1 : Nat) : ℚ) := rfl

theorem failedMetricsUpdate_totalRequests (m : Metrics) :
    (failedMetricsUpdate m).totalRequests = m.totalRequests + 1 := rfl

/-- Unfolding lemma for `_update_metrics` after a failed call at a
registered provider. -/
theorem updateMetrics_fail_eq (st : ManagerState) (name : Nat) (m : Metrics)
    (hm : dictGet st.performanceMetrics name = some m) :
    updateMetrics st name 0 false =
      { st with performanceMetrics :=
          dictSet st.performanceMetrics name (failedMetricsUpdate m) } := by
  unfold updateMetrics
  rw [hm]
  rfl

/-- C7: after a failed call to a registered provider, the gateway marks it
unhealthy exactly when the updated `error_rate = 1 - successful/total`
exceeds `1/2` and the updated `total_requests` exceeds `10`, and leaves the
health flag unchanged otherwise (first conjunct); no other provider's flag
changes (second conjunct); after 61 scenario requests preferring the
always-failing provider `A = 0`, A is unhealthy (third conjunct); and any
provider that is unhealthy going into a dispatch is never attempted by it
and is still unhealthy afterwards, so all later dispatches skip it
(fourth conjunct). -/
theorem failure_health_update (st : ManagerState) (name : Nat) (m : Metrics)
    (h : dictGet st.performanceMetrics name = some m) :
    (healthOf (checkProviderHealth (updateMetrics st name 0 false) name) name
      = if 1 - (m.successfulRequests : ℚ) / ((m.totalRequests + 1 : Nat) : ℚ) > 1 / 2
            ∧ m.totalRequests + 1 > 10
        then false else healthOf st name)
    ∧ (∀ q, q ≠ name →
        healthOf (checkProviderHealth (updateMetrics st name 0 false) name) q
          = healthOf st q)
    ∧ healthOf (iterateDispatch 61 stABCHealthy) 0 = false
    ∧ (∀ (st2 : ManagerState) (oracle2 : Nat → CallOutcome) (pref2 : Option Nat) (q : Nat),
        healthOf st2 q = false →
          q ∉ (runGenerate st2 oracle2 pref2).2.1
          ∧ healthOf (runGenerate st2 oracle2 pref2).1 q = false) := by
  have hm1 : dictGet (updateMetrics st name 0 false).performanceMetrics name
      = some (failedMetricsUpdate m) := by
    rw [updateMetrics_fail_eq st name m h]
    show dictGet (dictSet st.performanceMetrics name _) name = _
    rw [dictGet_dictSet, if_pos rfl]
  refine ⟨?_, ?_, ?_, ?_⟩
  · rw [checkProviderHealth_eq _ name _ hm1,
      failedMetricsUpdate_errorRate, failedMetricsUpdate_totalRequests]
    by_cases hcond :
        1 - (m.successfulRequests : ℚ) / ((m.totalRequests + 1 : Nat) : ℚ) > 1 / 2
          ∧ m.totalRequests + 1 > 10
    · rw [if_pos hcond, if_pos hcond]
      unfold healthOf
      show (dictGet (dictSet (updateMetrics st name 0 false).healthStatus name false) name).getD
          false = false
      rw [dictGet_dictSet, if_pos rfl]
      rfl
    · rw [if_neg hcond, if_neg hcond]
      exact healthOf_updateMetrics st name 0 false name
  · intro q hq
    rw [checkProviderHealth_eq _ name _ hm1,
      failedMetricsUpdate_errorRate, failedMetricsUpdate_totalRequests]
    by_cases hcond :
        1 - (m.successfulRequests : ℚ) / ((m.totalRequests + 1 : Nat) : ℚ) > 1 / 2
          ∧ m.totalRequests + 1 > 10
    · rw [if_pos hcond]
      unfold healthOf
      show (dictGet (dictSet (updateMetrics st name 0 false).healthStatus name false) q).getD
          false = _
      rw [dictGet_dictSet, if_neg hq]
      exact healthOf_updateMetrics st name 0 false q
    · rw [if_neg hcond]
      exact healthOf_updateMetrics st name 0 false q
  · show healthOf (iterateDispatch (50 + 11) stABCHealthy) 0 = false
    rw [iterateDispatch_add]
    exact iterateDispatch_unhealthy 50 _ eleven_failures_unhealthy
  · intro st2 oracle2 pref2 q hq
    exact unhealthy_skipped st2 oracle2 pref2 q hq

/-- Concrete instantiation of `failure_health_update`: the fresh metrics of
provider `A = 0` in the all-healthy scenario registry. -/
theorem failure_health_update_witness :
    dictGet stABCHealthy.performanceMetrics 0 = some freshMetrics
    ∧ ((healthOf (checkProviderHealth (updateMetrics stABCHealthy 0 0 false) 0) 0
        = if 1 - (freshMetrics.successfulRequests : ℚ)
                / ((freshMetrics.totalRequests + 1 : Nat) : ℚ) > 1 / 2
              ∧ freshMetrics.totalRequests + 1 > 10
          then false else healthOf stABCHealthy 0)
      ∧ (∀ q, q ≠ 0 →
          healthOf (checkProviderHealth (updateMetrics stABCHealthy 0 0 false) 0) q
            = healthOf stABCHealthy q)
      ∧ healthOf (iterateDispatch 61 stABCHealthy) 0 = false
      ∧ (∀ (st2 : ManagerState) (oracle2 : Nat → CallOutcome) (pref2 : Option Nat) (q : Nat),
          healthOf st2 q = false →
            q ∉ (runGenerate st2 oracle2 pref2).2.1
            ∧ healthOf (runGenerate st2 oracle2 pref2).1 q = false)) :=
  ⟨by with_unfolding_all decide,
    failure_health_update stABCHealthy 0 freshMetrics (by with_unfolding_all decide)⟩

/-! ### Registry bookkeeping (`LLMManager.add_provider` / `remove_provider`) -/

theorem dictKeys_cons {α : Type} (e : Nat × α) (l : List (Nat × α)) :
    dictKeys (e :: l) = e.1 :: dictKeys l := rfl

theorem dictKeys_append {α : Type} (l1 l2 : List (Nat × α)) :
    dictKeys (l1 ++ l2) = dictKeys l1 ++ dictKeys l2 := by
  unfold dictKeys
  simp

/-- A key reads back `some` value exactly when it occurs in the key
list. -/
theorem dictGet_isSome_iff {α : Type} (k : Nat) :
    ∀ l : List (Nat × α), (dictGet l k).isSome = true ↔ k ∈ dictKeys l := by
  intro l
  induction l with
  | nil => simp [dictGet, dictKeys]
  | cons e es ih =>
    rw [dictGet_cons, dictKeys_cons]
    by_cases he : (e.1 == k) = true
    · have hek : e.1 = k := by simpa using he
      simp [he, hek]
    · have hek : e.1 ≠ k := by simpa using he
      rw [if_neg he]
      simp only [List.mem_cons]
      constructor
      · intro hs
        exact Or.inr (ih.mp hs)
      · intro hk
        rcases hk with hk | hk
        · exact absurd hk.symm hek
        · exact ih.mpr hk

/-- Deleting a key filters it out of the key list. -/
theorem dictKeys_dictDelete {α : Type} (k : Nat) :
    ∀ l : List (Nat × α),
      dictKeys (dictDelete l k) = (dictKeys l).filter (fun q => q != k) := by
  intro l
  induction l with
  | nil => rfl
  | cons e es ih =>
    unfold dictDelete at ih ⊢
    rw [dictKeys_cons, List.filter_cons, List.filter_cons]
    by_cases he : (e.1 != k) = true
    · rw [if_pos he, if_pos he, dictKeys_cons, ih]
    · rw [if_neg he, if_neg he, ih]

/-- `dictSet` on an absent key appends the new binding. -/
theorem dictSet_absent {α : Type} (l : List (Nat × α)) (k : Nat) (v : α)
    (h : (dictGet l k).isSome = false) :
    dictSet l k v = l ++ [(k, v)] := by
  unfold dictSet
  have hf : (l.find? (fun e => e.1 == k)).isSome = false := by
    unfold dictGet at h
    cases hx : l.find? (fun e => e.1 == k)
    · rfl
    · rw [hx] at h
      simp at h
  rw [if_neg (by simp [hf])]

/-- The registry bookkeeping invariant of the claim: the three dicts share
one key list, registered names are pairwise distinct, and the priority list
holds exactly the registered names, each exactly once. -/
def RegistryInv (st : ManagerState) : Prop :=
  dictKeys st.healthStatus = dictKeys st.providers
  ∧ dictKeys st.performanceMetrics = dictKeys st.providers
  ∧ (dictKeys st.providers).Nodup
  ∧ ∀ n, st.providerPriority.count n = if n ∈ dictKeys st.providers then 1 else 0

/-- An administrative call on the registry. -/
inductive RegistryOp where
  | add (name : Nat) (priority : Int)
  | remove (name : Nat)
deriving Repr, DecidableEq

/-- Executing one administrative call. -/
def applyOp (st : ManagerState) : RegistryOp → ManagerState
  | .add n p => addProvider st n p
  | .remove n => removeProvider st n

/-- Executing a sequence of administrative calls. -/
def applyOps : ManagerState → List RegistryOp → ManagerState
  | st, [] => st
  | st, op :: rest => applyOps (applyOp st op) rest

/-- The claim's side condition: no name is added while already
registered. -/
def validOps : ManagerState → List RegistryOp → Bool
  | _, [] => true
  | st, .add n p :: rest =>
    !(dictGet st.providers n).isSome && validOps (applyOp st (.add n p)) rest
  | st, .remove n :: rest => validOps (applyOp st (.remove n)) rest

/-- `add_provider` with a fresh name preserves the bookkeeping
invariant. -/
theorem registryInv_add (st : ManagerState) (n : Nat) (p : Int)
    (hinv : RegistryInv st) (habs : (dictGet st.providers n).isSome = false) :
    RegistryInv (addProvider st n p) := by
  obtain ⟨hh, hm, hnd, hcount⟩ := hinv
  have hmem : n ∉ dictKeys st.providers := by
    intro hn
    rw [(dictGet_isSome_iff n st.providers).mpr hn] at habs
    simp at habs
  have habsH : (dictGet st.healthStatus n).isSome = false := by
    cases hx : (dictGet st.healthStatus n).isSome
    · rfl
    · exact absurd (hh ▸ (dictGet_isSome_iff n st.healthStatus).mp hx) hmem
  have habsM : (dictGet st.performanceMetrics n).isSome = false := by
    cases hx : (dictGet st.performanceMetrics n).isSome
    · rfl
    · exact absurd (hm ▸ (dictGet_isSome_iff n st.performanceMetrics).mp hx) hmem
  unfold addProvider
  refine ⟨?_, ?_, ?_, ?_⟩
  · rw [dictSet_absent _ _ _ habsH, dictSet_absent _ _ _ habs,
      dictKeys_append, dictKeys_append, hh]
    rfl
  · rw [dictSet_absent _ _ _ habsM, dictSet_absent _ _ _ habs,
      dictKeys_append, dictKeys_append, hm]
    rfl
  · rw [dictSet_absent _ _ _ habs, dictKeys_append]
    rw [List.nodup_append]
    refine ⟨hnd, by simp [dictKeys], ?_⟩
    intro a ha hb
    have : a = n := by simpa [dictKeys] using hb
    exact hmem (this ▸ ha)
  · intro q
    rw [dictSet_absent _ _ _ habs, dictKeys_append]
    unfold pyInsertIdx
    rw [List.count_append]
    have hsplit : st.providerPriority.count q =
        (st.providerPriority.take (if p < 0 then (st.providerPriority.length + p).toNat
          else p.toNat)).count q
        + (st.providerPriority.drop (if p < 0 then (st.providerPriority.length + p).toNat
            else p.toNat)).count q := by
      rw [← List.count_append, List.take_append_drop]
    by_cases hq : q = n
    · rw [hq] at hsplit ⊢
      rw [List.count_cons_self]
      have h0 : st.providerPriority.count n = 0 := by
        rw [hcount n, if_neg hmem]
      have hmemnew : n ∈ dictKeys st.providers ++ dictKeys [(n, ())] := by
        simp [dictKeys]
      rw [if_pos hmemnew]
      omega
    · rw [List.count_cons_of_ne hq]
      have hmemq : (q ∈ dictKeys st.providers ++ dictKeys [(n, ())])
          ↔ q ∈ dictKeys st.providers := by
        simp [dictKeys, hq]
      by_cases hqin : q ∈ dictKeys st.providers
      · rw [if_pos (hmemq.mpr hqin)]
        have hc := hcount q
        rw [if_pos hqin] at hc
        omega
      · rw [if_neg (fun hx => hqin (hmemq.mp hx))]
        have hc := hcount q
        rw [if_neg hqin] at hc
        omega

/-- `remove_provider` preserves the bookkeeping invariant. -/
theorem registryInv_remove (st : ManagerState) (n : Nat) (hinv : RegistryInv st) :
    RegistryInv (removeProvider st n) := by
  obtain ⟨hh, hm, hnd, hcount⟩ := hinv
  by_cases hreg : ((dictGet st.providers n).isSome) = true
  · have hmem : n ∈ dictKeys st.providers := (dictGet_isSome_iff n st.providers).mp hreg
    have hcn : st.providerPriority.count n = 1 := by
      rw [hcount n, if_pos hmem]
    have hpmem : n ∈ st.providerPriority := by
      have : 0 < st.providerPriority.count n := by omega
      exact List.count_pos_iff.mp this
    unfold removeProvider
    rw [if_pos hreg]
    refine ⟨?_, ?_, ?_, ?_⟩
    · rw [dictKeys_dictDelete, dictKeys_dictDelete, hh]
    · rw [dictKeys_dictDelete, dictKeys_dictDelete, hm]
    · rw [dictKeys_dictDelete]
      exact hnd.filter _
    · intro q
      rw [if_pos hpmem, dictKeys_dictDelete]
      by_cases hq : q = n
      · rw [hq]
        have hdrop : n ∉ (dictKeys st.providers).filter (fun x => x != n) := by
          intro hx
          have := List.of_mem_filter hx
          simp at this
        rw [if_neg hdrop, List.count_erase_self, hcn]
      · have hmemq : (q ∈ (dictKeys st.providers).filter (fun x => x != n))
            ↔ q ∈ dictKeys st.providers := by
          constructor
          · intro hx
            exact List.mem_of_mem_filter hx
          · intro hx
            exact List.mem_filter.mpr ⟨hx, by simp [hq]⟩
        rw [List.count_erase_of_ne hq, hcount q]
        by_cases hqin : q ∈ dictKeys st.providers
        · rw [if_pos hqin, if_pos (hmemq.mpr hqin)]
        · rw [if_neg hqin, if_neg (fun hx => hqin (hmemq.mp hx))]
  · unfold removeProvider
    rw [if_neg hreg]
    exact ⟨hh, hm, hnd, hcount⟩

/-- The invariant holds after any valid sequence of administrative calls
from an invariant state. -/
theorem registryInv_applyOps :
    ∀ (ops : List RegistryOp) (st : ManagerState),
      RegistryInv st → validOps st ops = true → RegistryInv (applyOps st ops) := by
  intro ops
  induction ops with
  | nil => intro st hinv _; exact hinv
  | cons op rest ih =>
    intro st hinv hvalid
    cases op with
    | add n p =>
      rw [validOps, Bool.and_eq_true] at hvalid
      have habs : (dictGet st.providers n).isSome = false := by
        have := hvalid.1
        cases hx : (dictGet st.providers n).isSome
        · rfl
        · rw [hx] at this
          simp at this
      exact ih _ (registryInv_add st n p hinv habs) hvalid.2
    | remove n =>
      rw [validOps] at hvalid
      exact ih _ (registryInv_remove st n hinv) hvalid

/-- C10: after any sequence of `add_provider`/`remove_provider` calls on a
fresh manager in which no name is added while already registered, the
`providers`, `health_status` and `performance_metrics` dicts have identical
key lists and `provider_priority` contains exactly the registered names,
each exactly once (first conjunct); `remove_provider` on an unregistered
name leaves the whole state unchanged (second conjunct). -/
theorem registry_bookkeeping_invariant (ops : List RegistryOp)
    (h : validOps initialManager ops = true) :
    RegistryInv (applyOps initialManager ops)
    ∧ ∀ (st : ManagerState) (n : Nat),
        (dictGet st.providers n).isSome = false → removeProvider st n = st := by
  constructor
  · refine registryInv_applyOps ops initialManager ⟨rfl, rfl, by simp [initialManager, dictKeys], ?_⟩ h
    intro n
    simp [initialManager, dictKeys]
  · intro st n hn
    unfold removeProvider
    rw [if_neg (by simp [hn])]

/-- Concrete instantiation of `registry_bookkeeping_invariant`: add two
providers, remove one of them, then remove an unregistered name. -/
theorem registry_bookkeeping_invariant_witness :
    validOps initialManager
      [RegistryOp.add 0 0, RegistryOp.add 1 1, RegistryOp.remove 0, RegistryOp.remove 5] = true
    ∧ (RegistryInv (applyOps initialManager
        [RegistryOp.add 0 0, RegistryOp.add 1 1, RegistryOp.remove 0, RegistryOp.remove 5])
      ∧ ∀ (st : ManagerState) (n : Nat),
          (dictGet st.providers n).isSome = false → removeProvider st n = st) :=
  ⟨by with_unfolding_all decide,
    registry_bookkeeping_invariant
      [RegistryOp.add 0 0, RegistryOp.add 1 1, RegistryOp.remove 0, RegistryOp.remove 5]
      (by with_unfolding_all decide)⟩

/-! ### Circuit-breaker deployment loop
(`cloud_run_deployer.py`, `CloudRunDeployer._deploy_service_with_circuit_breaker`)

The breaker variables (`circuit_breaker_state`, `failure_count`,
`last_failure_time`) are local variables of the method, re-initialised on
every invocation (lines 139-143).  The deployment attempt
(`create_service` + `operation.result`) is an oracle indexed by the attempt
number; the separate `time.time()` reads of one loop iteration are modelled
as one instant per iteration, supplied by `times`. -/

inductive CircuitBreakerState where
  | closed
  | opened
  | halfOpen
deriving Repr, DecidableEq

/-- The error slot of the returned dict: the circuit-open rejection message
(lines 155-160) or `str(e)` of the last deployment exception. -/
inductive DeployError where
  | circuitOpenRejected
  | attemptFailed (err : Nat)
deriving Repr, DecidableEq

/-- The dict returned by `_deploy_service_with_circuit_breaker`
(`retry_count` is absent from the circuit-open rejection dict, hence
optional). -/
structure DeployOutcome where
  success : Bool
  url : Option Nat
  error : Option DeployError
  retryCount : Option Nat
  circuitBreakerState : CircuitBreakerState
deriving Repr, DecidableEq

/-- A run of the method plus instrumentation: `result = none` models the
`while` loop falling through (Python would return `None`); `invocations`
counts deployment attempts actually issued against the target;
`sawHalfOpen` records whether `circuit_breaker_state` was ever set to
`HALF_OPEN`; `failureCountAtReturn` is the final value of
`failure_count`. -/
structure DeployTrace where
  result : Option DeployOutcome
  invocations : Nat
  sawHalfOpen : Bool
  failureCountAtReturn : Nat
deriving Repr, DecidableEq

/-- The `while retry_count < max_retries` loop (lines 148-213) with
`failure_threshold = 3`, `recovery_timeout = 60`, `max_retries = 3`;
`fuel = max_retries - retry_count`. -/
def deployLoop (attemptResult : Nat → Except Nat Nat) (times : Nat → ℚ) :
    Nat → Nat → CircuitBreakerState → Nat → ℚ → Nat → Bool → DeployTrace
  | 0, _, _, failureCount, _, inv, saw => ⟨none, inv, saw, failureCount⟩
  | fuel + 1, retryCount, cbState, failureCount, lastFailureTime, inv, saw =>
    let now := times retryCount
    if cbState = CircuitBreakerState.opened ∧ ¬(now - lastFailureTime > 60) then
      ⟨some ⟨false, none, some .circuitOpenRejected, none, cbState⟩, inv, saw, failureCount⟩
    else
      let cbState1 := if cbState = CircuitBreakerState.opened
        then CircuitBreakerState.halfOpen else cbState
      let saw1 := saw || decide (cbState = CircuitBreakerState.opened)
      match attemptResult retryCount with
      | .ok url =>
        if cbState1 = CircuitBreakerState.halfOpen then
          ⟨some ⟨true, some url, none, some retryCount, .closed⟩, inv + 1, saw1, 0⟩
        else
          ⟨some ⟨true, some url, none, some retryCount, cbState1⟩, inv + 1, saw1, failureCount⟩
      | .error e =>
        let retry1 := retryCount + 1
        let fc1 := failureCount + 1
        let cb2 := if fc1 ≥ 3 then CircuitBreakerState.opened else cbState1
        if retry1 < 3 ∧ ¬(cb2 = CircuitBreakerState.opened) then
          deployLoop attemptResult times fuel retry1 cb2 fc1 now (inv + 1) saw1
        else
          ⟨some ⟨false, none, some (.attemptFailed e), some retry1, cb2⟩, inv + 1, saw1, fc1⟩

/-- One invocation of `_deploy_service_with_circuit_breaker`: every breaker
variable starts fresh (`CLOSED`, `failure_count = 0`,
`last_failure_time = 0`). -/
def deployServiceWithCircuitBreaker (attemptResult : Nat → Except Nat Nat)
    (times : Nat → ℚ) : DeployTrace :=
  deployLoop attemptResult times 3 0 .closed 0 0 0 false

/-- Starting from `CLOSED` (as every invocation does), the loop never sets
the breaker to `HALF_OPEN`: `OPEN` is only ever assigned on the exit path,
so the `HALF_OPEN` probe branch is unreachable. -/
theorem deployLoop_no_halfOpen (attemptResult : Nat → Except Nat Nat) (times : Nat → ℚ) :
    ∀ (fuel retryCount failureCount : Nat) (lastFailureTime : ℚ) (inv : Nat),
      (deployLoop attemptResult times fuel retryCount .closed failureCount
        lastFailureTime inv false).sawHalfOpen = false := by
  intro fuel
  induction fuel with
  | zero => intro retryCount failureCount lastFailureTime inv; rfl
  | succ fuel ih =>
    intro retryCount failureCount lastFailureTime inv
    rw [deployLoop]
    rw [if_neg (by simp)]
    cases hcall : attemptResult retryCount with
    | ok url => simp [hcall]
    | error e =>
      by_cases hfc : failureCount + 1 ≥ 3
      · simp [hcall, hfc]
      · by_cases hrc : retryCount + 1 < 3
        · simp [hcall, hfc, hrc, ih]
        · simp [hcall, hfc, hrc]

/-- A deployment target that fails every attempt. -/
def failingTarget : Nat → Except Nat Nat := fun _ => .error 5

/-- A deployment target that succeeds at every attempt. -/
def succeedingTarget : Nat → Except Nat Nat := fun _ => .ok 9

/-- A wall clock frozen at instant `t`. -/
def clockAt (t : ℚ) : Nat → ℚ := fun _ => t

/-- C5: refuted as stated.  After 3 consecutive failures the breaker state
is indeed OPEN (first conjunct: the call at `t = 0` returns
`circuit_breaker_state = OPEN` after exactly 3 target invocations).  But a
subsequent call made 1 second later — well within `recovery_timeout = 60`
of `last_failure_time` — is not rejected: the breaker variables are local
to each invocation and restart at CLOSED, so the target is invoked again
(second and third conjuncts: a succeeding target is invoked once and the
call succeeds; a failing target is invoked 3 more times). -/
theorem circuit_breaker_not_persisted :
    deployServiceWithCircuitBreaker failingTarget (clockAt 0) =
      ⟨some ⟨false, none, some (.attemptFailed 5), some 3, .opened⟩, 3, false, 3⟩
    ∧ deployServiceWithCircuitBreaker succeedingTarget (clockAt 1) =
      ⟨some ⟨true, some 9, none, some 0, .closed⟩, 1, false, 0⟩
    ∧ (deployServiceWithCircuitBreaker failingTarget (clockAt 1)).invocations = 3 := by
  refine ⟨?_, ?_, ?_⟩
  · with_unfolding_all decide
  · with_unfolding_all decide
  · with_unfolding_all decide

/-- C6: refuted as stated.  In no execution does the breaker ever reach
HALF_OPEN (first conjunct, over every target behaviour and clock): the
state is re-initialised to CLOSED on each invocation, and within an
invocation OPEN is only assigned on the exit path.  Concretely, after a
call at `t = 0` leaves the returned state OPEN (second conjunct), the next
call at `t = 61 > recovery_timeout` succeeds with final state CLOSED and
`failure_count = 0` — but as a fresh CLOSED call, never as a HALF_OPEN
probe (third conjunct: `sawHalfOpen = false`). -/
theorem circuit_breaker_half_open_unreachable :
    (∀ (attemptResult : Nat → Except Nat Nat) (times : Nat → ℚ),
        (deployServiceWithCircuitBreaker attemptResult times).sawHalfOpen = false)
    ∧ (deployServiceWithCircuitBreaker failingTarget (clockAt 0)).result
        = some ⟨false, none, some (.attemptFailed 5), some 3, .opened⟩
    ∧ deployServiceWithCircuitBreaker succeedingTarget (clockAt 61) =
      ⟨some ⟨true, some 9, none, some 0, .closed⟩, 1, false, 0⟩ := by
  refine ⟨?_, by with_unfolding_all decide, by with_unfolding_all decide⟩
  intro attemptResult times
  exact deployLoop_no_halfOpen attemptResult times 3 0 0 0 0

/-! ### Error signature (`self_healing_system.py`, `_generate_error_signature`)

Python strings are lists of characters; `hash(str(error)[:100])` is the
composition of an arbitrary string-rendered hash `strHash` with the
100-character truncation of the error's `str()`. -/

/-- A Python exception as the signature function sees it: its type name
(`type(error).__name__`) and its `str()`. -/
structure PyError where
  kind : List Char
  message : List Char
deriving Repr, DecidableEq

/-- `_generate_error_signature` (lines 103-110):
`f"{error_type}_{component}_{hash(str(error)[:100])}"`, where `component`
is `context.get("component", "unknown")`. -/
def generateErrorSignature (strHash : List Char → List Char)
    (e : PyError) (component : List Char) : List Char :=
  e.kind ++ '_' :: component ++ '_' :: strHash (e.message.take 100)

/-- C8: the signature is a congruence on failure classes.  Two errors of
the same kind whose messages agree on their first 100 characters get the
same signature against any one component (first conjunct), and the same
error evaluated against two different components gets two different
signatures (second conjunct) — for every hash function. -/
theorem error_signature_congruence (strHash : List Char → List Char)
    (e1 e2 e : PyError) (c c1 c2 : List Char)
    (hkind : e1.kind = e2.kind) (hmsg : e1.message.take 100 = e2.message.take 100)
    (hcomp : c1 ≠ c2) :
    generateErrorSignature strHash e1 c = generateErrorSignature strHash e2 c
    ∧ generateErrorSignature strHash e c1 ≠ generateErrorSignature strHash e c2 := by
  constructor
  · unfold generateErrorSignature
    rw [hkind, hmsg]
  · intro hEq
    unfold generateErrorSignature at hEq
    apply hcomp
    have h1 := List.append_cancel_right hEq
    have h2 := List.append_cancel_left h1
    injection h2 with h3 h4

/-- A concrete error whose message shares its first 100 characters with
`sigErr2` but differs afterwards. -/
def sigErr1 : PyError :=
  { kind := ['V'], message := List.replicate 100 'a' ++ ['b'] }

/-- A distinct concrete error of the same kind and message prefix. -/
def sigErr2 : PyError :=
  { kind := ['V'], message := List.replicate 100 'a' ++ ['c'] }

/-- Concrete instantiation of `error_signature_congruence`: two distinct
errors agreeing on kind and 100-character message prefix, and components
`"m"` versus `"n"`. -/
theorem error_signature_congruence_witness :
    (sigErr1.kind = sigErr2.kind
     ∧ sigErr1.message.take 100 = sigErr2.message.take 100
     ∧ (['m'] : List Char) ≠ ['n'])
    ∧ (generateErrorSignature id sigErr1 ['m'] = generateErrorSignature id sigErr2 ['m']
       ∧ generateErrorSignature id sigErr1 ['m'] ≠ generateErrorSignature id sigErr1 ['n']) :=
  ⟨⟨by decide, by decide, by decide⟩,
    error_signature_congruence id sigErr1 sigErr2 sigErr1 ['m'] ['m'] ['n']
      (by decide) (by decide) (by decide)⟩

/-! ### Self-healing controller (`self_healing_system.py`, `heal_error`)

Only `__init__`, `heal_error` and `_generate_error_signature` of
`SelfHealingSystem` exist in the source; the private helpers that
`heal_error` awaits (`_analyze_error_patterns`,
`_perform_predictive_maintenance`, `_select_healing_strategy`,
`_check_circuit_breaker`, `_execute_healing_strategy`,
`_update_circuit_breaker`, `_update_learning_models`) are defined nowhere
in the repository.  Each is therefore modelled as an oracle that either
returns a value or raises; `_execute_healing_strategy`'s returned dict is
merged into `healing_result` by `dict.update`, modelled as an arbitrary
result transformer. -/

/-- The `HealingStrategy` enum (lines 10-16). -/
inductive HealingStrategy where
  | retryWithBackoff
  | fallbackToTemplate
  | reduceComplexity
  | alternativeProvider
  | gracefulDegradation
  | predictiveMaintenance
deriving Repr, DecidableEq

/-- The strings appended to `healing_result["healing_actions"]`. -/
inductive HealAction where
  | healingProcessFailed (err : Nat)
  | circuitBreakerBlocked
  | strategyAction (a : Nat)
deriving Repr, DecidableEq

/-- The `healing_result` dict built by `heal_error` (lines 51-58). -/
structure HealingResult where
  success : Bool
  healingStrategyUsed : Option HealingStrategy
  healingActions : List HealAction
  predictiveActions : List Nat
  learningUpdates : List Nat
  requiresHumanIntervention : Bool
deriving Repr, DecidableEq

/-- The initial `healing_result` (lines 51-58): everything false/empty. -/
def initialHealingResult : HealingResult :=
  { success := false, healingStrategyUsed := none, healingActions := []
    predictiveActions := [], learningUpdates := [], requiresHumanIntervention := false }

/-- Oracles for one `heal_error` call: the behaviour of each awaited
private helper (absent from the source), as seen at this call. -/
structure HealEnv where
  genSignature : Except Nat (List Char)
  analyzePatterns : Except Nat Nat
  predictiveMaintenance : Except Nat (List Nat)
  selectStrategy : Except Nat (Option HealingStrategy)
  checkCircuitBreaker : Except Nat Bool
  executeHealing : HealingStrategy → Except Nat (HealingResult → HealingResult)
  updateCircuitBreaker : Bool → Except Nat Unit
  updateLearning : Except Nat (List Nat)

/-- The `except` block of `heal_error` (lines 97-99): log, append
`"Healing process failed: ..."` to `healing_actions`, and return the
result built so far — no flag is set and nothing is re-raised. -/
def failReturn (r : HealingResult) (e : Nat) : HealingResult :=
  { r with healingActions := r.healingActions ++ [.healingProcessFailed e] }

/-- The tail of the `try` block (lines 92-95): the continuous-learning
update, whose own exception also lands in the `except` block. -/
def finishLearning (env : HealEnv) (r : HealingResult) : HealingResult :=
  match env.updateLearning with
  | .error e => failReturn r e
  | .ok lu => { r with learningUpdates := lu }

/-- `SelfHealingSystem.heal_error` (lines 48-101): the `try` body in
sequence, with every raised exception routed to `failReturn` applied to
the `healing_result` as mutated so far. -/
def healError (env : HealEnv) : HealingResult :=
  match env.genSignature with
  | .error e => failReturn initialHealingResult e
  | .ok _ =>
  match env.analyzePatterns with
  | .error e => failReturn initialHealingResult e
  | .ok _ =>
  match env.predictiveMaintenance with
  | .error e => failReturn initialHealingResult e
  | .ok pact =>
  let r1 := { initialHealingResult with predictiveActions := pact }
  match env.selectStrategy with
  | .error e => failReturn r1 e
  | .ok none => finishLearning env r1
  | .ok (some strat) =>
    match env.checkCircuitBreaker with
    | .error e => failReturn r1 e
    | .ok true =>
      match env.executeHealing strat with
      | .error e => failReturn r1 e
      | .ok merge =>
        let r2 := merge r1
        match env.updateCircuitBreaker r2.success with
        | .error e => failReturn r2 e
        | .ok _ => finishLearning env r2
    | .ok false =>
      finishLearning env
        { r1 with
          healingActions := r1.healingActions ++ [.circuitBreakerBlocked]
          requiresHumanIntervention := true }

/-- A call on which the selected healing strategy's execution raises. -/
def healEnvProbe : HealEnv :=
  { genSignature := .ok ['s']
    analyzePatterns := .ok 0
    predictiveMaintenance := .ok []
    selectStrategy := .ok (some .retryWithBackoff)
    checkCircuitBreaker := .ok true
    executeHealing := fun _ => .error 42
    updateCircuitBreaker := fun _ => .ok ()
    updateLearning := .ok [] }

/-- C9: refuted as stated.  When the healing process itself fails (here:
`_execute_healing_strategy` raises), `heal_error` catches the exception
and returns normally with `requires_human_intervention = false` — the flag
is not set by the `except` block, no `HealingFailed` error exists in the
repository, and nothing propagates to the caller. -/
theorem healing_failure_not_flagged :
    (healError healEnvProbe).requiresHumanIntervention = false
    ∧ (healError healEnvProbe).success = false
    ∧ (healError healEnvProbe).healingActions = [.healingProcessFailed 42] :=
  ⟨rfl, rfl, rfl⟩

/-- C9 (amended): whenever the healing process itself fails, `heal_error`
absorbs the exception and returns a normal result whose `healing_actions`
record `"Healing process failed: ..."`; `success` is false and
`requires_human_intervention` remains false — it is set only on the
circuit-breaker-blocked path, and no exception reaches the caller (the
model is a total function into `HealingResult`). -/
theorem healing_failure_absorbed (env : HealEnv) (sig : List Char) (pa : Nat)
    (pact : List Nat) (strat : HealingStrategy) (e : Nat)
    (h1 : env.genSignature = .ok sig) (h2 : env.analyzePatterns = .ok pa)
    (h3 : env.predictiveMaintenance = .ok pact)
    (h4 : env.selectStrategy = .ok (some strat))
    (h5 : env.checkCircuitBreaker = .ok true)
    (h6 : env.executeHealing strat = .error e) :
    healError env =
      { success := false, healingStrategyUsed := none
        healingActions := [.healingProcessFailed e]
        predictiveActions := pact, learningUpdates := []
        requiresHumanIntervention := false } := by
  unfold healError
  simp only [h1, h2, h3, h4, h5, h6]
  simp [failReturn, initialHealingResult]

/-- Concrete instantiation of `healing_failure_absorbed` at
`healEnvProbe`. -/
theorem healing_failure_absorbed_witness :
    (healEnvProbe.genSignature = .ok ['s']
     ∧ healEnvProbe.analyzePatterns = .ok 0
     ∧ healEnvProbe.predictiveMaintenance = .ok []
     ∧ healEnvProbe.selectStrategy = .ok (some .retryWithBackoff)
     ∧ healEnvProbe.checkCircuitBreaker = .ok true
     ∧ healEnvProbe.executeHealing .retryWithBackoff = .error 42)
    ∧ healError healEnvProbe =
      { success := false, healingStrategyUsed := none
        healingActions := [.healingProcessFailed 42]
        predictiveActions := [], learningUpdates := []
        requiresHumanIntervention := false } :=
  ⟨⟨rfl, rfl, rfl, rfl, rfl, rfl⟩,
    healing_failure_absorbed healEnvProbe ['s'] 0 [] .retryWithBackoff 42
      rfl rfl rfl rfl rfl rfl⟩

end GCPAgent
